import Mathlib

set_option maxHeartbeats 1000000

namespace StreamList

/-- A JavaScript(JSON) value, as produced by a successful JSON.parse. -/
inductive JsVal where
  | null
  | bool (b : Bool)
  | num (n : Int)
  | str (s : String)
  | arr (xs : List JsVal)
  | obj (fields : List (String × JsVal))

/-- JS truthiness of a value (NaN is not representable here; numbers are Int). -/
def truthy : JsVal → Bool
  | .null => false
  | .bool b => b
  | .num n => n ≠ 0
  | .str s => s ≠ ""
  | .arr _ => true
  | .obj _ => true

mutual

/-- Structural equality of JSON values: the model of comparing two values by
`JSON.stringify(a) === JSON.stringify(b)` (for values that round-trip through
JSON, stringify equality is structural equality, field order included). -/
def beqJs : JsVal → JsVal → Bool
  | .null, .null => true
  | .bool a, .bool b => a == b
  | .num a, .num b => a == b
  | .str a, .str b => a == b
  | .arr xs, .arr ys => beqJsList xs ys
  | .obj fs, .obj gs => beqJsFields fs gs
  | _, _ => false

def beqJsList : List JsVal → List JsVal → Bool
  | [], [] => true
  | x :: xs, y :: ys => beqJs x y && beqJsList xs ys
  | _, _ => false

def beqJsFields : List (String × JsVal) → List (String × JsVal) → Bool
  | [], [] => true
  | (k, v) :: fs, (l, w) :: gs => k == l && beqJs v w && beqJsFields fs gs
  | _, _ => false

end

/-! ## List Store data model (src/unnamed/part_001, HomeStreamList) -/

/-- A list item as created by `addItem`:
`{ id: uuid(), title: trimmed, completed: false, createdAt: Date.now() }`. -/
structure Item where
  id : String
  title : String
  completed : Bool
  createdAt : Int
deriving DecidableEq, Repr

/-- An event-log entry as built by `useEventLog`:
`{ id: uuid(), ts: new Date().toISOString(), type, payload }`. -/
structure Entry where
  id : String
  ts : String
  type : String
  payload : JsVal

/-! ## Title normalization: `title.replace(/\s+/g, " ").trim()` -/

/-- Characters matched by the JS regex class `\s` (ASCII part; the unicode
space characters are not used by the claims). -/
def isWS (c : Char) : Bool :=
  c = ' ' || c = '\t' || c = '\n' || c = '\r' || c = '\x0b' || c = '\x0c'

/-- `replace(/\s+/g, " ")`: every maximal run of whitespace becomes one space. -/
def collapseWS : List Char → List Char
  | [] => []
  | [c] => if isWS c then [' '] else [c]
  | c :: d :: rest =>
      if isWS c then
        if isWS d then collapseWS (d :: rest)
        else ' ' :: collapseWS (d :: rest)
      else c :: collapseWS (d :: rest)

/-- `String.prototype.trim()`: drop whitespace at both ends. -/
def trimChars (l : List Char) : List Char :=
  ((l.dropWhile isWS).reverse.dropWhile isWS).reverse

/-- `title.replace(/\s+/g, " ").trim()` from `addItem` (part_001 line 137). -/
def normalizeTitle (s : String) : String :=
  ⟨trimChars (collapseWS s.data)⟩

/-! ## Event Log: `useEventLog` (part_001 lines 58-72)

`append` prepends the fresh entry and bounds with `.slice(0, 1000)`. -/

/-- The fixed cap of the event log. -/
def LOG_CAP : Nat := 1000

/-- `[entry, ...events].slice(0, 1000)` — the happy-path body of `append`
applied to an already well-formed stored log. -/
def appendBounded (e : α) (l : List α) : List α :=
  (e :: l).take LOG_CAP

/-- Running a finite sequence of `append` calls against the stored log:
each call re-reads the log the previous call wrote. -/
def appendAll (init : List Entry) (es : List Entry) : List Entry :=
  es.foldl (fun l e => appendBounded e l) init

/-! ## List Store operations (part_001 lines 135-208) -/

/-- `addItem` restricted to the collection: reject when the normalized title
is empty, otherwise prepend the fresh item (part_001 lines 135-144).
`freshId` and `now` stand for the opaque `uuid()` and `Date.now()` calls. -/
def addItem (title freshId : String) (now : Int) (items : List Item) : List Item :=
  let trimmed := normalizeTitle title
  if trimmed = "" then items
  else { id := freshId, title := trimmed, completed := false, createdAt := now } :: items

/-- `addItem` restricted to the event log: the `log("item_add", ...)` call is
only reached when the normalized title is nonempty; `e` is the entry the
logger would build. -/
def addItemLog (title : String) (e : Entry) (log : List Entry) : List Entry :=
  let trimmed := normalizeTitle title
  if trimmed = "" then log
  else appendBounded e log

/-- The per-item body of `toggleComplete`:
`it.id === id ? { ...it, completed: !it.completed } : it`. -/
def toggleOne (id : String) (it : Item) : Item :=
  if it.id = id then { it with completed := !it.completed } else it

/-- `toggleComplete` (part_001 lines 147-153), collection part:
`prev.map((it) => (it.id === id ? { ...it, completed: !it.completed } : it))`. -/
def toggleComplete (id : String) (items : List Item) : List Item :=
  items.map (toggleOne id)

/-- `removeItem` (part_001 lines 180-184), collection part:
`prev.filter((x) => x.id !== id)`. -/
def removeItem (id : String) (items : List Item) : List Item :=
  items.filter (fun x => x.id ≠ id)

/-- `clearCompleted` (part_001 lines 187-191), collection part:
`prev.filter((it) => !it.completed)`. -/
def clearCompleted (items : List Item) : List Item :=
  items.filter (fun it => !it.completed)

/-- `stats` (part_001 lines 200-204): `total`, `done`, `left = total - done`. -/
structure Stats where
  total : Nat
  done : Nat
  left : Nat
deriving DecidableEq, Repr

def stats (items : List Item) : Stats :=
  let total := items.length
  let done := (items.filter (fun i => i.completed)).length
  { total := total, done := done, left := total - done }

/-- One List Store mutation, for reachability statements. The `freshId`/`now`
arguments of `add` stand for the environment-supplied `uuid()`/`Date.now()`. -/
inductive Op where
  | add (title freshId : String) (now : Int)
  | remove (id : String)
  | toggle (id : String)

/-- Apply one operation to the collection. -/
def applyOp (items : List Item) : Op → List Item
  | .add title freshId now => addItem title freshId now items
  | .remove id => removeItem id items
  | .toggle id => toggleComplete id items

/-- Apply a finite sequence of operations, in order. -/
def runOps (start : List Item) (ops : List Op) : List Item :=
  ops.foldl applyOp start

/-! ## `append` with full JS storage semantics (part_001 lines 58-72)

```
let events = [];
try { events = JSON.parse(localStorage.getItem(key)) || []; } catch { events = []; }
const entry = { id: uuid(), ts: ..., type, payload };
const next = [entry, ...events].slice(0, 1000);
localStorage.setItem(key, JSON.stringify(next));   // NOT wrapped in try/catch
```
-/

/-- What the raw storage slot holds from the point of view of
`JSON.parse(localStorage.getItem(key))`. -/
inductive StoredRaw where
  | missing          -- getItem returns null; JSON.parse(null) parses "null" to null
  | unparseable      -- JSON.parse throws a SyntaxError (caught by the catch)
  | parsed (v : JsVal)  -- JSON.parse succeeds with value v

/-- Exceptions `append` can raise past its own try/catch. -/
inductive JsErr where
  | typeError   -- spreading a non-iterable value in [entry, ...events]
  | quotaError  -- localStorage.setItem failing (e.g. QuotaExceededError)
deriving DecidableEq, Repr

/-- JS array-spread `[...v]`: arrays yield their elements, strings yield their
characters (as one-character strings); every other value is not iterable and
the spread throws a TypeError. -/
def spreadJs : JsVal → Option (List JsVal)
  | .arr xs => some xs
  | .str s => some (s.data.map (fun c => JsVal.str c.toString))
  | _ => none

/-- The value bound to `events` after the guarded read
`JSON.parse(localStorage.getItem(key)) || []` with its try/catch:
a missing slot reads as null (falsy), an unparseable slot is caught, and a
parsed falsy value is replaced by `[]`. -/
def readEvents : StoredRaw → JsVal
  | .missing => .arr []
  | .unparseable => .arr []
  | .parsed v => if truthy v then v else .arr []

/-- The whole body of `append`: read `events`, build `next`, write it back.
`entry` is the freshly built entry object; `writeFails` says whether the
durable write (`localStorage.setItem`, outside any try/catch) throws. -/
def appendJs (entry : JsVal) (raw : StoredRaw) (writeFails : Bool) :
    Except JsErr (List JsVal) :=
  match spreadJs (readEvents raw) with
  | none => .error .typeError
  | some events =>
      let next := appendBounded entry events
      if writeFails then .error .quotaError else .ok next

/-- Stored values `append` treats as an empty log: missing, unparseable, or
parsed but falsy. -/
def toleratedRaw : StoredRaw → Bool
  | .missing => true
  | .unparseable => true
  | .parsed v => !truthy v

/-! ## Cross-Tab Notifier: the `storage` handler of `useLocalStorage`
(part_001 lines 38-52)

```
const onStorage = (e) => {
  if (e.key === key && e.storageArea === localStorage) {
    try {
      const next = e.newValue != null ? JSON.parse(e.newValue) : initialValue;
      setValue((curr) =>
        JSON.stringify(curr) === JSON.stringify(next) ? curr : next);
    } catch {}
  }
};
```
-/

/-- A `storage` event as the handler consumes it. `newValue` is the raw slot
content: `none` when the slot was removed (e.newValue === null), otherwise the
outcome of `JSON.parse` on it. `sameArea` is `e.storageArea === localStorage`. -/
structure StorageEvent where
  key : Option String
  newValue : Option (Except Unit JsVal)
  sameArea : Bool

/-- The in-memory value after the handler runs: `watched` is the hook's key,
`initialValue` its default, `curr` the current in-memory value. A parse
failure aborts the handler inside its try/catch, so no update happens. -/
def onStorage (watched : String) (initialValue curr : JsVal)
    (e : StorageEvent) : JsVal :=
  if e.key = some watched ∧ e.sameArea then
    match e.newValue with
    | none => if beqJs curr initialValue then curr else initialValue
    | some (.ok v) => if beqJs curr v then curr else v
    | some (.error _) => curr
  else curr

/-! ## Remote Cache Layer: the `Movies` page-enter effect
(part_001 lines 342-394) -/

/-- The component state `{ loading, error, data }`. -/
structure MoviesState where
  loading : Bool
  error : Option String
  data : List JsVal

/-- The cache envelope `{ ts, data }` stored under the versioned key
`streamlist.tmdb.popular.v2`. -/
structure CacheEnvelope where
  ts : Int
  data : List JsVal

def CACHE_TTL_MS : Int := 1000 * 60 * 60

/-- The guard `cached && cached.ts && cached.data && Date.now() - cached.ts <
CACHE_TTL_MS`: `cached.ts` must be truthy (a nonzero number) and `cached.data`
is an array, hence always truthy. -/
def cacheFresh (cache : Option CacheEnvelope) (now : Int) : Bool :=
  match cache with
  | some c => decide (c.ts ≠ 0) && decide (now - c.ts < CACHE_TTL_MS)
  | none => false

/-- What the synchronous part of a page-enter does, and whether it issues a
network request. `state` is the component state at the moment the fetch (if
any) is issued. -/
structure PageEnterResult where
  state : MoviesState
  networkCalled : Bool

/-- The page-enter effect: publish a fresh-enough cached envelope, then bail
out to `Error` when the API key is missing, otherwise start the fetch
(`setState((s) => ({ ...s, loading: true, error: null }))` then `fetch`).
`hasKey` stands for `process.env.REACT_APP_TMDB_API_KEY` being set. -/
def moviesPageEnter (cache : Option CacheEnvelope) (now : Int) (hasKey : Bool) :
    PageEnterResult :=
  let s0 : MoviesState := { loading := true, error := none, data := [] }
  let s1 : MoviesState :=
    if cacheFresh cache now then
      { loading := false, error := none, data := (cache.map CacheEnvelope.data).getD [] }
    else s0
  if !hasKey then
    { state := { loading := false,
                 error := some "TMDB API key missing. Add REACT_APP_TMDB_API_KEY to your .env and restart.",
                 data := [] },
      networkCalled := false }
  else
    { state := { s1 with loading := true, error := none }, networkCalled := true }

/-! ## Helper lemmas -/

theorem length_filter_le_length (p : Item → Bool) (l : List Item) :
    (l.filter p).length ≤ l.length :=
  List.length_filter_le p l

/-- The consistency of `stats` holds of every collection, reachable or not. -/
theorem stats_consistent (items : List Item) :
    (stats items).total = (stats items).done + (stats items).left ∧
    (stats items).done = (items.filter (fun i => i.completed)).length := by
  refine ⟨?_, rfl⟩
  have h := length_filter_le_length (fun i => i.completed) items
  simp only [stats]
  omega

theorem toggleOne_involutive (i : String) (it : Item) :
    toggleOne i (toggleOne i it) = it := by
  obtain ⟨a, t, c, d⟩ := it
  by_cases h : a = i
  · simp [toggleOne, h, Bool.not_not]
  · simp [toggleOne, h]

theorem toggleOne_id (i : String) (it : Item) : (toggleOne i it).id = it.id := by
  unfold toggleOne
  by_cases h : it.id = i <;> simp [h]

theorem toggleOne_title (i : String) (it : Item) : (toggleOne i it).title = it.title := by
  unfold toggleOne
  by_cases h : it.id = i <;> simp [h]

theorem toggleOne_createdAt (i : String) (it : Item) :
    (toggleOne i it).createdAt = it.createdAt := by
  unfold toggleOne
  by_cases h : it.id = i <;> simp [h]

theorem toggleOne_noop (i : String) (it : Item) (h : it.id ≠ i) :
    toggleOne i it = it := by
  simp [toggleOne, h]

/-! ## Theorems for the claims -/

/-- C3: for every collection reachable by any finite sequence of add, remove,
and toggle operations from any starting collection, `stats` returns
`{total, done, left}` with `total = done + left` and `done` equal to the
number of items whose `completed` field is true. -/
theorem stats_consistent_reachable (start : List Item) (ops : List Op) :
    (stats (runOps start ops)).total =
      (stats (runOps start ops)).done + (stats (runOps start ops)).left ∧
    (stats (runOps start ops)).done =
      ((runOps start ops).filter (fun i => i.completed)).length :=
  stats_consistent (runOps start ops)

/-- C5: for every collection and every input title whose trimmed form is
empty, `addItem` is a no-op on the collection and on the event log: no item
and no `item_add` entry is added. -/
theorem addItem_empty_title_noop (title freshId : String) (now : Int)
    (items : List Item) (e : Entry) (log : List Entry)
    (h : normalizeTitle title = "") :
    addItem title freshId now items = items ∧ addItemLog title e log = log := by
  constructor
  · simp [addItem, h]
  · simp [addItemLog, h]

/-- Witness for C5 at the concrete all-blank title `"   "`. -/
theorem addItem_empty_title_noop_witness :
    addItem "   " "id1" 0 [] = [] ∧
    addItemLog "   " ⟨"e1", "t1", "item_add", JsVal.null⟩ [] = [] :=
  addItem_empty_title_noop "   " "id1" 0 [] ⟨"e1", "t1", "item_add", JsVal.null⟩ []
    (by decide)

/-- C6: `clearCompleted` is idempotent on the collection: applying it twice
in a row yields the same collection as applying it once. -/
theorem clearCompleted_idempotent (items : List Item) :
    clearCompleted (clearCompleted items) = clearCompleted items := by
  simp [clearCompleted, List.filter_filter]

/-- C9: toggle is an involution on the collection: for every collection and
every id (present or absent), applying `toggleComplete id` twice yields a
collection equal item-for-item to the original. -/
theorem toggleComplete_involutive (i : String) (items : List Item) :
    toggleComplete i (toggleComplete i items) = items := by
  induction items with
  | nil => rfl
  | cons it rest ih =>
      simpa [toggleComplete, toggleOne_involutive] using ih

/-- C2 helper: one `append` keeps the log within the cap. -/
theorem appendBounded_length_le (e : Entry) (l : List Entry) :
    (appendBounded e l).length ≤ LOG_CAP := by
  simp [appendBounded, List.length_take]

/-- C2 helper: one `append` puts the new entry at index 0. -/
theorem appendBounded_head (e : Entry) (l : List Entry) :
    (appendBounded e l).head? = some e := by
  show ((e :: l).take (999 + 1)).head? = some e
  rw [List.take_succ_cons]
  rfl

/-- C2: for every initial stored log and every nonempty finite sequence of
`append` calls, the resulting log has length at most the cap (1000) and the
entry created by the most recent `append` sits at index 0. -/
theorem appendAll_bounded_newest_at_zero (init : List Entry) (es : List Entry)
    (h : es ≠ []) :
    (appendAll init es).length ≤ LOG_CAP ∧
    (appendAll init es).head? = es.getLast? := by
  induction es generalizing init with
  | nil => exact absurd rfl h
  | cons e rest ih =>
      cases rest with
      | nil =>
          refine ⟨appendBounded_length_le e init, ?_⟩
          simp [appendAll, appendBounded_head]
      | cons e2 rest2 =>
          have step : appendAll init (e :: e2 :: rest2) =
              appendAll (appendBounded e init) (e2 :: rest2) := rfl
          rw [step, List.getLast?_cons_cons]
          exact ih (appendBounded e init) (List.cons_ne_nil e2 rest2)

/-- Witness for C2 with one concrete `append` against an empty stored log. -/
theorem appendAll_bounded_newest_at_zero_witness :
    (appendAll [] [⟨"i1", "t1", "page_view", JsVal.null⟩]).length ≤ LOG_CAP ∧
    (appendAll [] [⟨"i1", "t1", "page_view", JsVal.null⟩]).head? =
      [(⟨"i1", "t1", "page_view", JsVal.null⟩ : Entry)].getLast? :=
  appendAll_bounded_newest_at_zero [] [⟨"i1", "t1", "page_view", JsVal.null⟩]
    (List.cons_ne_nil _ _)

/-- C10: for every collection and every id, `toggleComplete id` preserves the
collection's length and ordering and every item's `id`, `title` and
`createdAt`; every item whose id does not match is unchanged in its entirety;
and if no item matches, the whole collection is unchanged. -/
theorem toggleComplete_frame (i : String) (items : List Item) :
    (toggleComplete i items).length = items.length ∧
    (∀ k : Nat, ((toggleComplete i items)[k]?).map Item.id = (items[k]?).map Item.id) ∧
    (∀ k : Nat, ((toggleComplete i items)[k]?).map Item.title = (items[k]?).map Item.title) ∧
    (∀ k : Nat,
      ((toggleComplete i items)[k]?).map Item.createdAt = (items[k]?).map Item.createdAt) ∧
    (∀ k : Nat, ∀ it : Item, items[k]? = some it → it.id ≠ i →
      (toggleComplete i items)[k]? = some it) ∧
    ((∀ it ∈ items, it.id ≠ i) → toggleComplete i items = items) := by
  refine ⟨?_, ?_, ?_, ?_, ?_, ?_⟩
  · simp [toggleComplete]
  · intro k
    cases hk : items[k]? <;> simp [toggleComplete, hk, toggleOne_id]
  · intro k
    cases hk : items[k]? <;> simp [toggleComplete, hk, toggleOne_title]
  · intro k
    cases hk : items[k]? <;> simp [toggleComplete, hk, toggleOne_createdAt]
  · intro k it hk hne
    simp [toggleComplete, hk, toggleOne_noop i it hne]
  · intro hall
    show items.map (toggleOne i) = items
    conv_rhs => rw [← List.map_id items]
    exact List.map_congr_left (fun it hmem => toggleOne_noop i it (hall it hmem))

/-- A small concrete collection used to instantiate frame properties. -/
def demoItems : List Item :=
  [{ id := "a", title := "Alpha", completed := false, createdAt := 0 },
   { id := "b", title := "Beta", completed := true, createdAt := 1 }]

/-- Witness for C10: toggling `"a"` leaves the non-matching item `"b"` intact,
and toggling an absent id leaves the whole collection unchanged. -/
theorem toggleComplete_frame_witness :
    (toggleComplete "a" demoItems)[1]? =
      some { id := "b", title := "Beta", completed := true, createdAt := 1 } ∧
    toggleComplete "z" demoItems = demoItems :=
  ⟨(toggleComplete_frame "a" demoItems).2.2.2.2.1 1
      { id := "b", title := "Beta", completed := true, createdAt := 1 }
      (by decide) (by decide),
   (toggleComplete_frame "z" demoItems).2.2.2.2.2 (by decide)⟩

/-- C1 counterexample: an envelope fetched 1 ms ago (well within the 1-hour
TTL) is fresh, yet the page-enter with the API key present still issues a
network call — the code revalidates unconditionally. -/
theorem moviesPageEnter_fresh_cache_counterexample :
    cacheFresh (some { ts := 5, data := [JsVal.obj []] }) 6 = true ∧
    (moviesPageEnter (some { ts := 5, data := [JsVal.obj []] }) 6 true).networkCalled =
      true := by
  constructor
  · rfl
  · rfl

/-- C1 amended: on page-enter, a network call is issued exactly when the API
key is present, regardless of cache freshness; a missing key yields an error
state with no call; a fresh envelope's cached data is published into state
(and survives the fetch-start state update); with a stale or absent envelope
the data stays empty while the fetch is issued. -/
theorem moviesPageEnter_contract (cache : Option CacheEnvelope) (now : Int)
    (hasKey : Bool) :
    ((moviesPageEnter cache now hasKey).networkCalled = hasKey) ∧
    (hasKey = false → (moviesPageEnter cache now hasKey).state.error.isSome = true) ∧
    (∀ env : CacheEnvelope, cache = some env → cacheFresh cache now = true →
      hasKey = true → (moviesPageEnter cache now hasKey).state.data = env.data) ∧
    (cacheFresh cache now = false → hasKey = true →
      (moviesPageEnter cache now hasKey).state.data = []) := by
  refine ⟨?_, ?_, ?_, ?_⟩
  · cases hasKey <;> simp [moviesPageEnter]
  · intro h
    subst h
    simp [moviesPageEnter]
  · intro env hc hf hk
    subst hk
    subst hc
    simp [moviesPageEnter, hf]
  · intro hf hk
    subst hk
    simp [moviesPageEnter, hf]

/-- Witness for C1 (amended) covering each hypothesis: missing key, fresh
envelope with key, and absent envelope with key. -/
theorem moviesPageEnter_contract_witness :
    (moviesPageEnter (some { ts := 7, data := [JsVal.null] }) 8 false).state.error.isSome =
      true ∧
    (moviesPageEnter (some { ts := 7, data := [JsVal.null] }) 8 true).state.data =
      [JsVal.null] ∧
    (moviesPageEnter none 8 true).state.data = [] :=
  ⟨(moviesPageEnter_contract (some { ts := 7, data := [JsVal.null] }) 8 false).2.1 rfl,
   (moviesPageEnter_contract (some { ts := 7, data := [JsVal.null] }) 8 true).2.2.1
      { ts := 7, data := [JsVal.null] } rfl rfl rfl,
   (moviesPageEnter_contract none 8 true).2.2.2 rfl rfl⟩

/-- C4 counterexample: with a well-formed (empty) stored log and a failing
durable write, `append` raises the write exception to its caller — the
`localStorage.setItem` call sits outside the try/catch. -/
theorem append_write_failure_counterexample :
    appendJs (JsVal.obj []) (StoredRaw.parsed (JsVal.arr [])) true =
      Except.error JsErr.quotaError := rfl

/-- C4 amended: only the read/parse of the stored log is guarded; whenever
the read produces a spreadable `events` value, the durable write's outcome
decides `append`'s — the updated log if the write succeeds, the propagated
write exception if it fails. -/
theorem append_write_outcome (entry : JsVal) (raw : StoredRaw) (writeFails : Bool)
    (events : List JsVal) (h : spreadJs (readEvents raw) = some events) :
    appendJs entry raw writeFails =
      (if writeFails then Except.error JsErr.quotaError
       else Except.ok (appendBounded entry events)) := by
  cases writeFails <;> simp [appendJs, h]

/-- Witness for C4 (amended) at a well-formed empty stored log and a failing
write. -/
theorem append_write_outcome_witness :
    appendJs (JsVal.str "e") (StoredRaw.parsed (JsVal.arr [])) true =
      (if true then Except.error JsErr.quotaError
       else Except.ok (appendBounded (JsVal.str "e") ([] : List JsVal))) :=
  append_write_outcome (JsVal.str "e") (StoredRaw.parsed (JsVal.arr [])) true [] rfl

/-- C7 counterexample: the stored raw value `"{}"` parses to a truthy
non-iterable object, so `[entry, ...events]` throws a TypeError — `append`
does fail on this corrupt stored input. -/
theorem append_corrupt_object_counterexample :
    appendJs (JsVal.obj []) (StoredRaw.parsed (JsVal.obj [])) false =
      Except.error JsErr.typeError := rfl

/-- C7 amended: `append` tolerates a missing stored value, an unparseable
one, and a parsed falsy value, treating the log as empty and completing with
the one-entry log; a parsed truthy non-iterable value is not tolerated (see
the counterexample). -/
theorem append_tolerated_singleton (entry : JsVal) (raw : StoredRaw)
    (h : toleratedRaw raw = true) :
    appendJs entry raw false = Except.ok [entry] := by
  cases raw with
  | missing => rfl
  | unparseable => rfl
  | parsed v =>
      simp only [toleratedRaw, Bool.not_eq_true'] at h
      simp [appendJs, readEvents, h, spreadJs, appendBounded, LOG_CAP]

/-- Witness for C7 (amended) at an unparseable stored value. -/
theorem append_tolerated_singleton_witness :
    appendJs (JsVal.str "e") StoredRaw.unparseable false =
      Except.ok [JsVal.str "e"] :=
  append_tolerated_singleton (JsVal.str "e") StoredRaw.unparseable rfl

/-- C8 counterexample: on a notification for the watched name whose new raw
value fails to parse, the handler's catch swallows the exception and the
in-memory value stays `1` — it does not fall back to the caller's default
`0` as the claim states. -/
theorem onStorage_parse_failure_counterexample :
    onStorage "k" (JsVal.num 0) (JsVal.num 1)
      { key := some "k", newValue := some (Except.error ()), sameArea := true } =
      JsVal.num 1 ∧
    JsVal.num 1 ≠ JsVal.num 0 := by
  constructor
  · rfl
  · intro h
    injection h with h1
    exact absurd h1 (by decide)

/-- C8 amended: notifications for other names or other storage areas cause
no state change; on the watched name, a parse failure causes no state change
(the default is used only when the slot's raw value is absent); a parsed
value — and, on a removed slot, the caller's default — replaces the current
value exactly when it differs from it under stringify equality. -/
theorem onStorage_contract (watched : String) (d curr v : JsVal)
    (e : StorageEvent) :
    ((e.key ≠ some watched ∨ e.sameArea = false) → onStorage watched d curr e = curr) ∧
    (e.key = some watched → e.sameArea = true → e.newValue = some (Except.error ()) →
      onStorage watched d curr e = curr) ∧
    (e.key = some watched → e.sameArea = true → e.newValue = some (Except.ok v) →
      onStorage watched d curr e = (if beqJs curr v then curr else v)) ∧
    (e.key = some watched → e.sameArea = true → e.newValue = none →
      onStorage watched d curr e = (if beqJs curr d then curr else d)) := by
  refine ⟨?_, ?_, ?_, ?_⟩
  · intro h
    rcases h with h | h
    · simp [onStorage, h]
    · simp [onStorage, h]
  · intro hk ha hv
    simp [onStorage, hk, ha, hv]
  · intro hk ha hv
    simp [onStorage, hk, ha, hv]
  · intro hk ha hv
    simp [onStorage, hk, ha, hv]

/-- Witness for C8 (amended) covering each hypothesis: a foreign key, a parse
failure, a parsed differing value, and a removed slot. -/
theorem onStorage_contract_witness :
    onStorage "k" (JsVal.num 0) (JsVal.num 1)
      { key := some "other", newValue := none, sameArea := true } = JsVal.num 1 ∧
    onStorage "k" (JsVal.num 0) (JsVal.num 1)
      { key := some "k", newValue := some (Except.error ()), sameArea := true } =
      JsVal.num 1 ∧
    onStorage "k" (JsVal.num 0) (JsVal.num 1)
      { key := some "k", newValue := some (Except.ok (JsVal.num 2)), sameArea := true } =
      (if beqJs (JsVal.num 1) (JsVal.num 2) then JsVal.num 1 else JsVal.num 2) ∧
    onStorage "k" (JsVal.num 0) (JsVal.num 1)
      { key := some "k", newValue := none, sameArea := true } =
      (if beqJs (JsVal.num 1) (JsVal.num 0) then JsVal.num 1 else JsVal.num 0) :=
  ⟨(onStorage_contract "k" (JsVal.num 0) (JsVal.num 1) JsVal.null
      { key := some "other", newValue := none, sameArea := true }).1
        (Or.inl (by simp)),
   (onStorage_contract "k" (JsVal.num 0) (JsVal.num 1) JsVal.null
      { key := some "k", newValue := some (Except.error ()), sameArea := true }).2.1
        rfl rfl rfl,
   (onStorage_contract "k" (JsVal.num 0) (JsVal.num 1) (JsVal.num 2)
      { key := some "k", newValue := some (Except.ok (JsVal.num 2)), sameArea := true }).2.2.1
        rfl rfl rfl,
   (onStorage_contract "k" (JsVal.num 0) (JsVal.num 1) JsVal.null
      { key := some "k", newValue := none, sameArea := true }).2.2.2
        rfl rfl rfl⟩

end StreamList
